import Mathlib

/-!
Verification development for the aiolmdb repository (an asyncio wrapper
around the LMDB embedded key-value store, plus a composable codec pipeline).

The definitions below are a shallow embedding of the two source files:

* `aiolmdb/coders.py` — the `Coder` class hierarchy (`IdentityCoder`,
  `StringCoder`, the fixed-width unsigned integer coders produced by
  `__create_int_coder`, `JSONCoder`, `PickleCoder`, `ZlibCoder`, and the
  `Coder.compressed` decorator method), and
* `aiolmdb/__init__.py` — `_action`, `AsyncTransaction`, `AsyncEnviroment`
  and `AsyncDatabase`.

External collaborators (the Python standard library codecs `struct`, `zlib`,
`json`, `pickle`, text encodings, and the LMDB store accessed through
py-lmdb) are modelled at their documented interface boundary: the byte-level
record operations follow the mdb_get/mdb_put/mdb_del/Cursor.pop contracts
quoted verbatim in the repository's own docstrings, and the unconstrained
library transforms (compress, dumps, loads, encode, decode) are passed in as
explicit parameters so that theorems state exactly which library facts they
rely on.

Python byte strings are modelled as lists of naturals, Python `None` (both
for an absent buffer and for an absent value) as `Option.none`, and a raised
exception as `Except.error`.
-/

namespace Aiolmdb

/-- Byte strings (Python `bytes`); each element is one byte value. -/
abbrev Bytes := List Nat

/-- Exceptions that the embedded code can raise.  `structError` stands for
`struct.error` (raised by `struct.pack`/`struct.unpack` on range or length
violations), the others for the corresponding Python library errors, and
`envClosed` for the error py-lmdb raises when an operation is attempted on a
closed environment. -/
inductive Err where
  | structError
  | unicodeError
  | jsonError
  | pickleError
  | zlibError
  | envClosed
  deriving DecidableEq, Repr

instance {ε α : Type} [DecidableEq ε] [DecidableEq α] : DecidableEq (Except ε α) := fun x y =>
  match x, y with
  | .error a, .error b =>
    if h : a = b then isTrue (congrArg Except.error h)
    else isFalse (by intro hc; injection hc; exact h (by assumption))
  | .error _, .ok _ => isFalse (by intro hc; exact Except.noConfusion hc)
  | .ok _, .error _ => isFalse (by intro hc; exact Except.noConfusion hc)
  | .ok a, .ok b =>
    if h : a = b then isTrue (congrArg Except.ok h)
    else isFalse (by intro hc; injection hc; exact h (by assumption))

/-- A coder, as in `coders.py`: a `serialize`/`deserialize` pair.
`serialize` may raise (`Except.error`); `deserialize` receives either an
absent buffer (`none`, Python `None`) or a present buffer, may raise, and
returns an absent or present value. -/
structure Coder (α : Type) where
  serialize : α → Except Err Bytes
  deserialize : Option Bytes → Except Err (Option α)

/-- Source `IdentityCoder`: `serialize` is `bytes(obj)` (the identity on a
byte string) and `deserialize` is `None if buf is None else bytes(buf)`. -/
def IdentityCoder : Coder Bytes where
  serialize := fun obj => .ok obj
  deserialize := fun buf =>
    match buf with
    | none => .ok none
    | some b => .ok (some b)

/-- A text encoding, the external collaborator behind `StringCoder`:
`encode` models `str.encode(encoding)` and `decode` models
`bytes.decode(encoding)`; either may raise a unicode error. -/
structure TextEncoding where
  encode : String → Except Err Bytes
  decode : Bytes → Except Err String

/-- Source `StringCoder(encoding)`: `serialize` is `obj.encode(encoding)`,
`deserialize` is `None if buf is None else buf.decode(encoding)`. -/
def StringCoder (enc : TextEncoding) : Coder String where
  serialize := fun obj => enc.encode obj
  deserialize := fun buf =>
    match buf with
    | none => .ok none
    | some b =>
      match enc.decode b with
      | .error e => .error e
      | .ok s => .ok (some s)

/-- Big-endian fixed-width encoding of `n` into `w` bytes, the observable
behaviour of `struct.pack` with format `">H"`/`">I"`/`">Q"` on an in-range
argument: most significant byte first. -/
def beBytes : Nat → Nat → Bytes
  | 0, _ => []
  | w + 1, n => beBytes w (n / 256) ++ [n % 256]

/-- Big-endian value of a byte string, the observable behaviour of
`struct.unpack` with a big-endian format on a buffer of exactly the right
length. -/
def beVal (b : Bytes) : Nat :=
  b.foldl (fun acc x => acc * 256 + x) 0

/-- Source `__create_int_coder(name, fmt)` for a big-endian unsigned format
of byte width `w`: `serialize` is `struct.pack(fmt, obj)`, which raises
`struct.error` when `obj` is out of range for the width, and `deserialize`
is `None if buf is None else struct.unpack(fmt, buf)[0]`, where
`struct.unpack` raises `struct.error` unless the buffer length is exactly
the width. -/
def intCoder (w : Nat) : Coder Nat where
  serialize := fun obj =>
    if obj < 2 ^ (8 * w) then .ok (beBytes w obj) else .error .structError
  deserialize := fun buf =>
    match buf with
    | none => .ok none
    | some b =>
      if b.length = w then .ok (some (beVal b)) else .error .structError

/-- Source `UInt16Coder = __create_int_coder("UInt16Coder", ">H")`. -/
def UInt16Coder : Coder Nat := intCoder 2

/-- Source `UInt32Coder = __create_int_coder("UInt32Coder", ">I")`. -/
def UInt32Coder : Coder Nat := intCoder 4

/-- Source `UInt64Coder = __create_int_coder("UInt64Coder", ">Q")`. -/
def UInt64Coder : Coder Nat := intCoder 8

/-- The external `json` module used by `JSONCoder`: `dumps` models
`json.dumps(obj, ensure_ascii=False)` and `loads` models `json.loads`. -/
structure JsonLib (J : Type) where
  dumps : J → Except Err String
  loads : String → Except Err J

/-- Source `JSONCoder`, a `StringCoder` subclass: `serialize` is the text
encoding of `json.dumps(obj, ensure_ascii=False)`; `deserialize` returns
`None` on an absent buffer and otherwise `json.loads` of the decoded text. -/
def JSONCoder {J : Type} (enc : TextEncoding) (js : JsonLib J) : Coder J where
  serialize := fun obj =>
    match js.dumps obj with
    | .error e => .error e
    | .ok s => enc.encode s
  deserialize := fun buf =>
    match buf with
    | none => .ok none
    | some b =>
      match enc.decode b with
      | .error e => .error e
      | .ok s =>
        match js.loads s with
        | .error e => .error e
        | .ok v => .ok (some v)

/-- The external `pickle` module used by `PickleCoder`. -/
structure PickleLib (A : Type) where
  dumps : A → Except Err Bytes
  loads : Bytes → Except Err A

/-- Source `PickleCoder`: `serialize` is `pickle.dumps(obj)`, `deserialize`
is `None if buf is None else pickle.loads(buf)`. -/
def PickleCoder {A : Type} (pk : PickleLib A) : Coder A where
  serialize := fun obj => pk.dumps obj
  deserialize := fun buf =>
    match buf with
    | none => .ok none
    | some b =>
      match pk.loads b with
      | .error e => .error e
      | .ok v => .ok (some v)

/-- The external `zlib` module used by `ZlibCoder`: `compress` takes the
compression level and the data; `decompress` may raise a zlib error on an
invalid stream. -/
structure ZlibLib where
  compress : Nat → Bytes → Bytes
  decompress : Bytes → Except Err Bytes

/-- Source `ZlibCoder(subcoder, level)`: `serialize` compresses the
subcoder's output at the given level; `deserialize` returns `None` on an
absent buffer and otherwise feeds the decompressed bytes to the subcoder. -/
def ZlibCoder {A : Type} (z : ZlibLib) (subcoder : Coder A) (level : Nat) : Coder A where
  serialize := fun obj =>
    match subcoder.serialize obj with
    | .error e => .error e
    | .ok buf => .ok (z.compress level buf)
  deserialize := fun buf =>
    match buf with
    | none => .ok none
    | some b =>
      match z.decompress b with
      | .error e => .error e
      | .ok decomp => subcoder.deserialize (some decomp)

/-- Source method `Coder.compressed(self, level=1)`: returns
`ZlibCoder(self, level)`. -/
def Coder.compressed {A : Type} (c : Coder A) (z : ZlibLib) (level : Nat) : Coder A :=
  ZlibCoder z c level

/-- Iterated application of the compressing decorator: one `ZlibCoder` wrap
per entry of `levels`, innermost last.  Captures an arbitrary composition of
a coder with `Coder.compressed` at any nesting depth and any levels. -/
def wrapLevels (z : ZlibLib) : List Nat → {A : Type} → Coder A → Coder A
  | [], _, c => c
  | l :: ls, _, c => Coder.compressed (wrapLevels z ls c) z l

/-- The round-trip property of a coder at a value: whenever `serialize`
succeeds, `deserialize` of the produced buffer returns exactly the value. -/
def RoundTrips {A : Type} (c : Coder A) (v : A) : Prop :=
  ∀ b, c.serialize v = .ok b → c.deserialize (some b) = .ok (some v)

theorem beBytes_length (w n : Nat) : (beBytes w n).length = w := by
  induction w generalizing n with
  | zero => rfl
  | succ w ih => simp [beBytes, ih]

theorem beVal_append (xs : Bytes) (x : Nat) : beVal (xs ++ [x]) = beVal xs * 256 + x := by
  simp [beVal, List.foldl_append]

theorem beVal_beBytes (w n : Nat) (h : n < 256 ^ w) : beVal (beBytes w n) = n := by
  induction w generalizing n with
  | zero =>
    simp only [pow_zero, Nat.lt_one_iff] at h
    simp [beBytes, beVal, h]
  | succ w ih =>
    have hlt : n / 256 < 256 ^ w := by
      rw [Nat.div_lt_iff_lt_mul (by norm_num)]
      calc n < 256 ^ (w + 1) := h
        _ = 256 ^ w * 256 := by rw [pow_succ]
    rw [beBytes, beVal_append, ih _ hlt]
    omega

theorem two_pow_eq_256_pow (w : Nat) : (2 : Nat) ^ (8 * w) = 256 ^ w := by
  rw [Nat.pow_mul]

/-!
Model of the LMDB store behind `AsyncTransaction`, at the interface
boundary the repository's docstrings quote: `mdb_get`, `mdb_put`, `mdb_del`,
`Cursor.pop` and `Transaction.drop`.  A sub-database holds, for each key, the
sorted list of duplicate values (LMDB keeps at most one value per key unless
the database was opened with `dupsort=True`, in which case the values under
one key form a sorted set).  Association lists are keyed by byte strings;
lookups return the first match.
-/

section AssocList

variable {α : Type}

/-- First-match lookup in an association list keyed by byte strings. -/
def alookup (k : Bytes) : List (Bytes × α) → Option α
  | [] => none
  | p :: rest => if p.1 = k then some p.2 else alookup k rest

/-- Replace the value stored under `k` (no effect when `k` is absent). -/
def aset (k : Bytes) (v : α) : List (Bytes × α) → List (Bytes × α)
  | [] => []
  | p :: rest => if p.1 = k then (k, v) :: aset k v rest else p :: aset k v rest

/-- Remove every entry stored under `k`. -/
def aremove (k : Bytes) : List (Bytes × α) → List (Bytes × α)
  | [] => []
  | p :: rest => if p.1 = k then aremove k rest else p :: aremove k rest

theorem alookup_aset_self (k : Bytes) (v : α) (l : List (Bytes × α)) (w : α)
    (h : alookup k l = some w) : alookup k (aset k v l) = some v := by
  induction l with
  | nil => simp [alookup] at h
  | cons p rest ih =>
    by_cases hk : p.1 = k
    · simp [alookup, aset, hk]
    · simp only [alookup, aset, hk, if_false] at h ⊢
      exact ih h

theorem alookup_aset_ne (k k2 : Bytes) (v : α) (l : List (Bytes × α))
    (h : k2 ≠ k) : alookup k2 (aset k v l) = alookup k2 l := by
  induction l with
  | nil => rfl
  | cons p rest ih =>
    by_cases hk : p.1 = k
    · simp only [aset, hk, if_true, alookup]
      have hneg : ¬k = k2 := fun hc => h hc.symm
      rw [if_neg hneg, if_neg hneg]
      exact ih
    · simp only [aset, hk, if_false, alookup]
      by_cases hk2 : p.1 = k2
      · simp [hk2]
      · simp only [hk2, if_false]
        exact ih

theorem alookup_aremove_self (k : Bytes) (l : List (Bytes × α)) :
    alookup k (aremove k l) = none := by
  induction l with
  | nil => rfl
  | cons p rest ih =>
    by_cases hk : p.1 = k
    · simp only [aremove, hk, if_true]
      exact ih
    · simp only [aremove, hk, if_false, alookup]
      exact ih

theorem alookup_aremove_ne (k k2 : Bytes) (l : List (Bytes × α))
    (h : k2 ≠ k) : alookup k2 (aremove k l) = alookup k2 l := by
  induction l with
  | nil => rfl
  | cons p rest ih =>
    by_cases hk : p.1 = k
    · simp only [aremove, hk, if_true, alookup]
      rw [if_neg (fun hc => h hc.symm)]
      exact ih
    · simp only [aremove, hk, if_false, alookup]
      by_cases hk2 : p.1 = k2
      · simp [hk2]
      · simp only [hk2, if_false]
        exact ih

end AssocList

/-- Lexicographic order on byte strings, LMDB's default key and duplicate
comparison (unsigned byte compare, shorter prefix first). -/
def byteLe : Bytes → Bytes → Bool
  | [], _ => true
  | _ :: _, [] => false
  | a :: as, b :: bs => if a < b then true else if b < a then false else byteLe as bs

/-- Insert a value into a sorted duplicate list, keeping it sorted. -/
def sortedInsert (v : Bytes) : List Bytes → List Bytes
  | [] => [v]
  | w :: ws => if byteLe v w then v :: w :: ws else w :: sortedInsert v ws

/-- One LMDB sub-database: its `dupsort` flag and, per key, the sorted list
of values stored under that key. -/
structure DB where
  dupsort : Bool
  entries : List (Bytes × List Bytes)
  deriving DecidableEq, Repr

/-- py-lmdb `Transaction.get`: fetch the first value matching the key,
`None` if the key does not exist (in a `dupsort` database the first value in
duplicate-sort order). -/
def txnGet (db : DB) (k : Bytes) : Option Bytes :=
  match alookup k db.entries with
  | none => none
  | some vs => vs.head?

/-- py-lmdb `Transaction.put` / `mdb_put`: returns the updated database and
whether a record was written.  `False` is returned when the key is already
present and `overwrite=False`, and in a `dupsort` database when the exact
key/value pair is already present (`MDB_KEYEXIST`).  With `dupsort=True` and
`dupdata=True` a new value under an existing key is added as a duplicate in
sorted position; otherwise it replaces the stored value. -/
def txnPut (db : DB) (k v : Bytes) (dupdata overwrite : Bool) : DB × Bool :=
  match alookup k db.entries with
  | none => ({ db with entries := db.entries ++ [(k, [v])] }, true)
  | some vs =>
    if overwrite = false then (db, false)
    else if db.dupsort = true ∧ dupdata = true then
      if v ∈ vs then (db, false)
      else ({ db with entries := aset k (sortedInsert v vs) db.entries }, true)
    else ({ db with entries := aset k [v] db.entries }, true)

/-- py-lmdb `Transaction.delete` / `mdb_del`, as quoted in the repository's
docstring: if the database was opened with `dupsort=True` and the value is
not the empty bytestring, delete only the matching key/value pair, otherwise
delete all values stored under the key.  Returns whether at least one record
was removed. -/
def txnDelete (db : DB) (k v : Bytes) : DB × Bool :=
  match alookup k db.entries with
  | none => (db, false)
  | some vs =>
    if db.dupsort = true ∧ v ≠ [] then
      if v ∈ vs then
        if vs.erase v = [] then ({ db with entries := aremove k db.entries }, true)
        else ({ db with entries := aset k (vs.erase v) db.entries }, true)
      else (db, false)
    else ({ db with entries := aremove k db.entries }, true)

/-- py-lmdb `Transaction.pop` (a temporary cursor's `Cursor.pop`): fetch the
first value matching the key and delete that one record; `None` and no
change when the key does not exist. -/
def txnPop (db : DB) (k : Bytes) : DB × Option Bytes :=
  match alookup k db.entries with
  | none => (db, none)
  | some vs =>
    match vs with
    | [] => (db, none)
    | v :: rest =>
      if rest = [] then ({ db with entries := aremove k db.entries }, some v)
      else ({ db with entries := aset k rest db.entries }, some v)

/-!
The `AsyncTransaction` record operations from `aiolmdb/__init__.py`,
parameterised by the key and value coders the owning `AsyncDatabase` binds.
The database state is the last argument so each operation is exactly the
unit of work `_action` runs inside one store transaction.
-/

/-- Source `AsyncTransaction.get(key, default=None)`: serialize the key,
call `txn.get`, and return `default` when the buffer is absent, otherwise
the value coder's deserialization of the buffer. -/
def AsyncTransaction.get {κ ν : Type} (kc : Coder κ) (vc : Coder ν) (key : κ)
    (default : Option ν) (db : DB) : Except Err (Option ν) :=
  match kc.serialize key with
  | .error e => .error e
  | .ok key_enc =>
    match txnGet db key_enc with
    | none => .ok default
    | some buf => vc.deserialize (some buf)

/-- Source `AsyncTransaction.pop(key, default=None)`: serialize the key,
call `txn.pop`, and return `None` (not the default) when the popped buffer
is absent, otherwise the value coder's deserialization of the buffer. -/
def AsyncTransaction.pop {κ ν : Type} (kc : Coder κ) (vc : Coder ν) (key : κ)
    (default : Option ν) (db : DB) : Except Err (Option ν × DB) :=
  match kc.serialize key with
  | .error e => .error e
  | .ok key_enc =>
    match txnPop db key_enc with
    | (db1, none) => .ok (none, db1)
    | (db1, some buf) =>
      match vc.deserialize (some buf) with
      | .error e => .error e
      | .ok v => .ok (v, db1)

/-- Source `AsyncTransaction.put(key, value, dupdata=True, overwrite=True)`:
serialize both arguments and call `txn.put`. -/
def AsyncTransaction.put {κ ν : Type} (kc : Coder κ) (vc : Coder ν) (key : κ)
    (value : ν) (dupdata overwrite : Bool) (db : DB) : Except Err (Bool × DB) :=
  match kc.serialize key with
  | .error e => .error e
  | .ok key_enc =>
    match vc.serialize value with
    | .error e => .error e
    | .ok value_enc =>
      let r := txnPut db key_enc value_enc dupdata overwrite
      .ok (r.2, r.1)

/-- Source `AsyncTransaction.delete(key, value=None)`: serialize the key,
encode the value as the empty bytestring when it is `None` and through the
value coder otherwise, and call `txn.delete`. -/
def AsyncTransaction.delete {κ ν : Type} (kc : Coder κ) (vc : Coder ν) (key : κ)
    (value : Option ν) (db : DB) : Except Err (Bool × DB) :=
  match kc.serialize key with
  | .error e => .error e
  | .ok key_enc =>
    match (match value with | none => Except.ok ([] : Bytes) | some v => vc.serialize v) with
    | .error e => .error e
    | .ok value_enc =>
      let r := txnDelete db key_enc value_enc
      .ok (r.2, r.1)

/-- py-lmdb `Transaction.drop(db, delete=True)` acting on the environment's
map from sub-database name to sub-database: with `delete=True` the whole
sub-database is removed from the environment, with `delete=False` it is only
emptied and the handle stays usable. -/
def lmdbDrop (delete : Bool) (name : Bytes) (dbs : List (Bytes × DB)) : List (Bytes × DB) :=
  if delete then aremove name dbs
  else dbs.map (fun p => if p.1 = name then (p.1, { p.2 with entries := [] }) else p)

/-- Source `AsyncTransaction.drop(delete=True)`: the body is
`return self.txn.drop(self.db_handle)`, which passes no `delete` argument,
so py-lmdb's default `delete=True` is always used and the method's own
`delete` parameter has no effect. -/
def AsyncTransaction.drop (delete : Bool) (name : Bytes)
    (dbs : List (Bytes × DB)) : List (Bytes × DB) :=
  lmdbDrop true name dbs

/-!
The execution facade: `AsyncEnviroment` (the source file's spelling) and the
module-level `_action` helper.  `_action` opens one store transaction with
`with env.begin(...) as txn`, runs the unit of work, and relies on the
py-lmdb transaction context manager contract: commit on normal return, abort
and re-raise on an exception.  `_run_action` offloads `_action` to the
worker pool; the returned future resolves with the unit of work's return
value or rejects with the exception it raised.  The environment state keeps
the closed flag and the default database.
-/

/-- Environment state: the closed flag and the default database. -/
structure EnvState where
  closed : Bool
  main : DB
  deriving DecidableEq, Repr

/-- py-lmdb `Environment.begin`: raises once the environment is closed,
otherwise yields the current store contents. -/
def lmdbBegin (env : EnvState) : Except Err DB :=
  if env.closed then .error .envClosed else .ok env.main

/-- Source `_action(env, async_db, action, write)` composed with
`_run_action`: begin a transaction (failing when the environment is closed),
run the unit of work, commit its final state on normal return, abort (leave
the store unchanged) and reject the caller's future with the original error
when it raises. -/
def AsyncEnviroment.runAction {A : Type} (env : EnvState)
    (action : DB → Except Err (A × DB)) : Except Err A × EnvState :=
  match lmdbBegin env with
  | .error e => (.error e, env)
  | .ok db =>
    match action db with
    | .ok (a, db1) => (.ok a, { env with main := db1 })
    | .error e => (.error e, env)

/-- Source `AsyncEnviroment.close`: calls `env.close()`; py-lmdb documents
repeated calls as having no effect. -/
def AsyncEnviroment.close (env : EnvState) : EnvState :=
  { env with closed := true }

/-- Source `AsyncDatabase.get(key, default=None)`: run
`txn.get(key, default)` as a read-only unit of work. -/
def AsyncDatabase.get {κ ν : Type} (kc : Coder κ) (vc : Coder ν) (key : κ)
    (default : Option ν) (env : EnvState) : Except Err (Option ν) × EnvState :=
  AsyncEnviroment.runAction env (fun db =>
    match AsyncTransaction.get kc vc key default db with
    | .error e => .error e
    | .ok v => .ok (v, db))

/-- Source `AsyncDatabase.put(key, value, dupdata=True, overwrite=True)`:
run `txn.put(key, value, dupdata=dupdata, overwrite=overwrite)` as a write
unit of work. -/
def AsyncDatabase.put {κ ν : Type} (kc : Coder κ) (vc : Coder ν) (key : κ)
    (value : ν) (dupdata overwrite : Bool) (env : EnvState) :
    Except Err Bool × EnvState :=
  AsyncEnviroment.runAction env (AsyncTransaction.put kc vc key value dupdata overwrite)

/-- Source `AsyncDatabase.pop(key)`: run `txn.pop(key)` as a write unit of
work (a single transaction; no default argument is passed on). -/
def AsyncDatabase.pop {κ ν : Type} (kc : Coder κ) (vc : Coder ν) (key : κ)
    (env : EnvState) : Except Err (Option ν) × EnvState :=
  AsyncEnviroment.runAction env (AsyncTransaction.pop kc vc key none)

/-- Source `AsyncDatabase.delete(key, value=None)`: the unit of work is
`lambda txn: txn.delete(key)`, which passes the key but drops the method's
`value` argument, so the transaction always receives `value=None`. -/
def AsyncDatabase.delete {κ ν : Type} (kc : Coder κ) (vc : Coder ν) (key : κ)
    (value : Option ν) (env : EnvState) : Except Err Bool × EnvState :=
  AsyncEnviroment.runAction env (AsyncTransaction.delete kc vc key none)

/-!
Claim theorems.
-/

/-- C1: for every coder (Identity, String, the fixed-width unsigned integer
coders, JSON, Pickle) and for every composition of a coder with the
compressing decorator at any nesting depth and compression levels, and for
every value in the coder's domain, deserialize(serialize(v)) equals v.  The
domains are: all byte strings for Identity; strings the chosen text encoding
round-trips for String; integers in range for the width for the integer
coders; values the json (resp. pickle) library round-trips for JSON (resp.
Pickle); and zlib's documented decompress-compress inversion carries the
property through every compressing wrapper. -/
theorem coder_roundtrip :
    (∀ v : Bytes, RoundTrips IdentityCoder v)
    ∧ (∀ (enc : TextEncoding) (s : String),
        (∀ b, enc.encode s = .ok b → enc.decode b = .ok s) →
        RoundTrips (StringCoder enc) s)
    ∧ (∀ w n : Nat, n < 2 ^ (8 * w) → RoundTrips (intCoder w) n)
    ∧ (∀ (J : Type) (enc : TextEncoding) (js : JsonLib J) (v : J),
        (∀ s b, js.dumps v = .ok s → enc.encode s = .ok b → enc.decode b = .ok s) →
        (∀ s, js.dumps v = .ok s → js.loads s = .ok v) →
        RoundTrips (JSONCoder enc js) v)
    ∧ (∀ (A : Type) (pk : PickleLib A) (v : A),
        (∀ b, pk.dumps v = .ok b → pk.loads b = .ok v) →
        RoundTrips (PickleCoder pk) v)
    ∧ (∀ (z : ZlibLib), (∀ lvl b, z.decompress (z.compress lvl b) = .ok b) →
        ∀ (A : Type) (c : Coder A) (v : A) (lvl : Nat),
          RoundTrips c v → RoundTrips (c.compressed z lvl) v)
    ∧ (∀ (z : ZlibLib), (∀ lvl b, z.decompress (z.compress lvl b) = .ok b) →
        ∀ (A : Type) (c : Coder A) (v : A) (levels : List Nat),
          RoundTrips c v → RoundTrips (wrapLevels z levels c) v) := by
  have hzlib : ∀ (z : ZlibLib), (∀ lvl b, z.decompress (z.compress lvl b) = .ok b) →
      ∀ (A : Type) (c : Coder A) (v : A) (lvl : Nat),
        RoundTrips c v → RoundTrips (c.compressed z lvl) v := by
    intro z hz A c v lvl hrt b hb
    simp only [Coder.compressed, ZlibCoder] at hb ⊢
    cases hc : c.serialize v with
    | error e => rw [hc] at hb; exact absurd hb (by simp)
    | ok buf =>
      rw [hc] at hb
      injection hb with hb
      rw [← hb, hz lvl buf]
      exact hrt buf hc
  refine ⟨?_, ?_, ?_, ?_, ?_, hzlib, ?_⟩
  · intro v b hb
    simp only [IdentityCoder] at hb ⊢
    injection hb with hb
    rw [← hb]
  · intro enc s hinv b hb
    simp only [StringCoder] at hb ⊢
    rw [hinv b hb]
  · intro w n h b hb
    have h256 : n < 256 ^ w := by rw [← two_pow_eq_256_pow]; exact h
    simp only [intCoder] at hb ⊢
    rw [if_pos h] at hb
    injection hb with hb
    rw [← hb, beBytes_length, if_pos rfl, beVal_beBytes w n h256]
  · intro J enc js v henc hjs b hb
    simp only [JSONCoder] at hb ⊢
    cases hd : js.dumps v with
    | error e => rw [hd] at hb; exact absurd hb (by simp)
    | ok s =>
      rw [hd] at hb
      simp only at hb
      simp [henc s b hd hb, hjs s hd]
  · intro A pk v hinv b hb
    simp only [PickleCoder] at hb ⊢
    rw [hinv b hb]
  · intro z hz A c v levels
    induction levels with
    | nil => intro h; exact h
    | cons l ls ih =>
      intro h
      exact hzlib z hz A (wrapLevels z ls c) v l (ih h)

/-- A concrete text-encoding model used to witness satisfiability of the
library hypotheses: it encodes every string as the empty byte string and
decodes every byte string as the empty string (invertible on the empty
string, the only string the witness serializes). -/
def trivEnc : TextEncoding where
  encode := fun _ => .ok []
  decode := fun _ => .ok ""

/-- A concrete json-library model for the witness: every value dumps to the
empty string and every string loads back to `0`. -/
def trivJson : JsonLib Nat where
  dumps := fun _ => .ok ""
  loads := fun _ => .ok 0

/-- A concrete pickle-library model for the witness. -/
def trivPickle : PickleLib Nat where
  dumps := fun _ => .ok []
  loads := fun _ => .ok 0

/-- A concrete zlib model for the witness: compression is the identity at
every level, so decompression inverts it everywhere. -/
def trivZlib : ZlibLib where
  compress := fun _ b => b
  decompress := fun b => .ok b

/-- Witness for C1 at concrete inputs: each conjunct of `coder_roundtrip`
applied with its library hypotheses discharged by computation. -/
theorem coder_roundtrip_witness :
    RoundTrips IdentityCoder [1, 2, 3]
    ∧ RoundTrips (StringCoder trivEnc) ""
    ∧ RoundTrips (intCoder 2) 65535
    ∧ RoundTrips (JSONCoder trivEnc trivJson) 0
    ∧ RoundTrips (PickleCoder trivPickle) 0
    ∧ RoundTrips ((intCoder 2).compressed trivZlib 9) 65535
    ∧ RoundTrips (wrapLevels trivZlib [1, 9] (intCoder 2)) 65535 := by
  obtain ⟨h1, h2, h3, h4, h5, h6, h7⟩ := coder_roundtrip
  have hn : (65535 : Nat) < 2 ^ (8 * 2) := by norm_num
  refine ⟨h1 [1, 2, 3], h2 trivEnc "" (fun b hb => rfl), h3 2 65535 hn,
    h4 Nat trivEnc trivJson 0 ?_ (fun s hs => rfl), h5 Nat trivPickle 0 (fun b hb => rfl),
    h6 trivZlib (fun lvl b => rfl) Nat (intCoder 2) 65535 9 (h3 2 65535 hn),
    h7 trivZlib (fun lvl b => rfl) Nat (intCoder 2) 65535 [1, 9] (h3 2 65535 hn)⟩
  intro s b hs hb
  injection hs with hs
  rw [← hs]
  rfl

/-- C2: for every coder, deserialize of an absent input (`None`) yields
`none` without invoking any wrapped logic — for the compressing decorator
the result is `ok none` for every zlib model and every subcoder, so neither
is consulted — and `get` on an absent key returns the caller's default for
every value coder, so the value coder is never applied to an absent result,
both at the transaction level and through the Database Handle. -/
theorem absence_propagation :
    IdentityCoder.deserialize none = .ok none
    ∧ (∀ enc : TextEncoding, (StringCoder enc).deserialize none = .ok none)
    ∧ (∀ w : Nat, (intCoder w).deserialize none = .ok none)
    ∧ (∀ (J : Type) (enc : TextEncoding) (js : JsonLib J),
        (JSONCoder enc js).deserialize none = .ok none)
    ∧ (∀ (A : Type) (pk : PickleLib A), (PickleCoder pk).deserialize none = .ok none)
    ∧ (∀ (A : Type) (z : ZlibLib) (c : Coder A) (lvl : Nat),
        (ZlibCoder z c lvl).deserialize none = .ok none)
    ∧ (∀ (κ ν : Type) (kc : Coder κ) (vc : Coder ν) (key : κ) (ke : Bytes)
        (d : Option ν) (db : DB),
        kc.serialize key = .ok ke → txnGet db ke = none →
        AsyncTransaction.get kc vc key d db = .ok d)
    ∧ (∀ (κ ν : Type) (kc : Coder κ) (vc : Coder ν) (key : κ) (ke : Bytes)
        (d : Option ν) (env : EnvState),
        env.closed = false → kc.serialize key = .ok ke → txnGet env.main ke = none →
        AsyncDatabase.get kc vc key d env = (.ok d, env)) := by
  have htxn : ∀ (κ ν : Type) (kc : Coder κ) (vc : Coder ν) (key : κ) (ke : Bytes)
      (d : Option ν) (db : DB),
      kc.serialize key = .ok ke → txnGet db ke = none →
      AsyncTransaction.get kc vc key d db = .ok d := by
    intro κ ν kc vc key ke d db hk habs
    simp only [AsyncTransaction.get]
    rw [hk]
    simp only
    rw [habs]
  refine ⟨rfl, fun _ => rfl, fun _ => rfl, fun _ _ _ => rfl, fun _ _ => rfl,
    fun _ _ _ _ => rfl, htxn, ?_⟩
  intro κ ν kc vc key ke d env hop hk habs
  obtain ⟨c, m⟩ := env
  simp only at hop habs
  subst hop
  simp [AsyncDatabase.get, AsyncEnviroment.runAction, lmdbBegin,
    htxn κ ν kc vc key ke d m hk habs]

/-- Witness for C2: the transaction-level and handle-level conjuncts of
`absence_propagation` applied to the identity coders, key `[9]` and an
explicit one-record store that does not contain that key. -/
theorem absence_propagation_witness :
    AsyncTransaction.get IdentityCoder IdentityCoder [9] (some [7]) (DB.mk false [([1], [[2]])])
      = .ok (some [7])
    ∧ AsyncDatabase.get IdentityCoder IdentityCoder [9] none
        (EnvState.mk false (DB.mk false [([1], [[2]])]))
      = (.ok none, EnvState.mk false (DB.mk false [([1], [[2]])])) := by
  refine ⟨absence_propagation.2.2.2.2.2.2.1 Bytes Bytes IdentityCoder IdentityCoder
      [9] [9] (some [7]) (DB.mk false [([1], [[2]])]) rfl (by decide),
    absence_propagation.2.2.2.2.2.2.2 Bytes Bytes IdentityCoder IdentityCoder
      [9] [9] none (EnvState.mk false (DB.mk false [([1], [[2]])])) rfl rfl (by decide)⟩

/-- C3: for every unit of work run through the Environment on an open
environment, the store transaction is committed exactly when the unit of
work returns normally (the environment's store takes the unit of work's
final state and the future resolves with its return value) and aborted when
it raises (the store is left unchanged and the caller's future rejects with
the original error). -/
theorem action_commit_abort {A : Type} (env : EnvState)
    (action : DB → Except Err (A × DB)) (hop : env.closed = false) :
    (∀ (a : A) (db1 : DB), action env.main = .ok (a, db1) →
      AsyncEnviroment.runAction env action = (.ok a, { env with main := db1 }))
    ∧ (∀ e : Err, action env.main = .error e →
      AsyncEnviroment.runAction env action = (.error e, env)) := by
  constructor
  · intro a db1 hact
    simp [AsyncEnviroment.runAction, lmdbBegin, hop, hact]
  · intro e hact
    simp [AsyncEnviroment.runAction, lmdbBegin, hop, hact]

/-- Witness for C3: a normally-returning unit of work (which writes `[5]`
under `[1]`) commits its state, and a raising one leaves the store unchanged
and rejects with the same error. -/
theorem action_commit_abort_witness :
    AsyncEnviroment.runAction (EnvState.mk false (DB.mk false []))
        (fun db => .ok (true, DB.mk false [([1], [[5]])]))
      = (.ok true, EnvState.mk false (DB.mk false [([1], [[5]])]))
    ∧ AsyncEnviroment.runAction (EnvState.mk false (DB.mk false []))
        (fun db => (.error .structError : Except Err (Bool × DB)))
      = (.error .structError, EnvState.mk false (DB.mk false [])) := by
  exact ⟨(action_commit_abort (EnvState.mk false (DB.mk false []))
      (fun db => .ok (true, DB.mk false [([1], [[5]])])) rfl).1
      true (DB.mk false [([1], [[5]])]) rfl,
    (action_commit_abort (EnvState.mk false (DB.mk false []))
      (fun db => (.error .structError : Except Err (Bool × DB))) rfl).2
      .structError rfl⟩

/-- Counterexample to C4 as stated: in a `dupsort=True` database holding
value `[1]` under key `[0]`, `put([0], [2], overwrite=True)` (with the
default `dupdata=True`) returns `True` but adds `[2]` as a duplicate, and
the subsequent `get([0])` fetches the first duplicate in sorted order,
`[1]`, not the value `[2]` that was put. -/
theorem put_overwrite_counterexample :
    AsyncTransaction.put IdentityCoder IdentityCoder [0] [2] true true
        (DB.mk true [([0], [[1]])])
      = .ok (true, DB.mk true [([0], [[1], [2]])])
    ∧ AsyncTransaction.get IdentityCoder IdentityCoder [0] none
        (DB.mk true [([0], [[1], [2]])])
      = .ok (some [1])
    ∧ (Except.ok (some [1]) : Except Err (Option Bytes)) ≠ .ok (some [2]) := by
  exact ⟨rfl, rfl, by decide⟩

/-- C4 as amended: for every key already present, `put(key, v,
overwrite=False)` returns `False` and leaves the whole store (hence the
stored value and all other keys) unchanged; and in a sub-namespace without
duplicate support, `put(key, v, overwrite=True)` returns `True`, a
subsequent `get(key)` returns `v`, and records under all other keys are
unchanged.  (In a dup-sort namespace with `dupdata=True` the new value is
instead added as a duplicate and `get` returns the sorted-first duplicate,
per `put_overwrite_counterexample`.) -/
theorem put_overwrite_amended {κ ν : Type} (kc : Coder κ) (vc : Coder ν)
    (key : κ) (v : ν) (ke ve : Bytes) (db : DB) (vs : List Bytes) (dd : Bool)
    (hk : kc.serialize key = .ok ke) (hv : vc.serialize v = .ok ve)
    (hpres : alookup ke db.entries = some vs) :
    (AsyncTransaction.put kc vc key v dd false db = .ok (false, db))
    ∧ (db.dupsort = false →
        AsyncTransaction.put kc vc key v dd true db
          = .ok (true, { db with entries := aset ke [ve] db.entries })
        ∧ (vc.deserialize (some ve) = .ok (some v) →
            ∀ d : Option ν,
              AsyncTransaction.get kc vc key d { db with entries := aset ke [ve] db.entries }
                = .ok (some v))
        ∧ (∀ k2, k2 ≠ ke → alookup k2 (aset ke [ve] db.entries) = alookup k2 db.entries)) := by
  constructor
  · simp [AsyncTransaction.put, txnPut, hk, hv, hpres]
  · intro hdup
    refine ⟨?_, ?_, ?_⟩
    · simp [AsyncTransaction.put, txnPut, hk, hv, hpres, hdup]
    · intro hde d
      simp [AsyncTransaction.get, txnGet, hk,
        alookup_aset_self ke [ve] db.entries vs hpres, hde]
    · intro k2 hne
      exact alookup_aset_ne ke k2 [ve] db.entries hne

/-- Witness for C4 as amended, on a plain (non-dupsort) store holding `[1]`
under key `[0]`: `put` with `overwrite=False` returns `False` and changes
nothing, `put` with `overwrite=True` returns `True` and replaces the value,
and `get` then returns the new value. -/
theorem put_overwrite_amended_witness :
    AsyncTransaction.put IdentityCoder IdentityCoder [0] [2] true false
        (DB.mk false [([0], [[1]])])
      = .ok (false, DB.mk false [([0], [[1]])])
    ∧ AsyncTransaction.put IdentityCoder IdentityCoder [0] [2] true true
        (DB.mk false [([0], [[1]])])
      = .ok (true, DB.mk false [([0], [[2]])])
    ∧ AsyncTransaction.get IdentityCoder IdentityCoder [0] none
        (DB.mk false [([0], [[2]])])
      = .ok (some [2]) := by
  have h := put_overwrite_amended IdentityCoder IdentityCoder [0] [2] [0] [2]
    (DB.mk false [([0], [[1]])]) [[1]] true rfl rfl (by decide)
  have h2 := h.2 rfl
  exact ⟨h.1, h2.1, h2.2.1 rfl none⟩

/-- C5 exhibit: `AsyncDatabase.delete` discards its `value` argument (its
unit of work is `lambda txn: txn.delete(key)`), so on a dup-sort store
holding `[1]` and `[2]` under key `[0]`, `delete([0], value=[1])` through
the Database Handle removes both duplicates, while the transaction-level
`delete` it documents itself as forwarding to would remove only the matching
pair and keep `[2]`. -/
theorem database_delete_drops_value :
    AsyncDatabase.delete IdentityCoder IdentityCoder [0] (some [1])
        (EnvState.mk false (DB.mk true [([0], [[1], [2]])]))
      = (.ok true, EnvState.mk false (DB.mk true []))
    ∧ AsyncTransaction.delete IdentityCoder IdentityCoder [0] (some [1])
        (DB.mk true [([0], [[1], [2]])])
      = .ok (true, DB.mk true [([0], [[2]])])
    ∧ EnvState.mk false (DB.mk true []) ≠ EnvState.mk false (DB.mk true [([0], [[2]])]) := by
  exact ⟨rfl, rfl, by decide⟩

/-- Counterexample to C6 as stated: in a `dupsort=True` database holding
duplicates `[1]` and `[2]` under key `[0]`, `pop([0])` returns the first
duplicate and removes only that record, so the subsequent `get` returns the
remaining duplicate `[2]`, not the caller's default (`none`). -/
theorem pop_counterexample :
    AsyncTransaction.pop IdentityCoder IdentityCoder [0] none
        (DB.mk true [([0], [[1], [2]])])
      = .ok (some [1], DB.mk true [([0], [[2]])])
    ∧ AsyncTransaction.get IdentityCoder IdentityCoder [0] none
        (DB.mk true [([0], [[2]])])
      = .ok (some [2])
    ∧ (Except.ok (some [2]) : Except Err (Option Bytes)) ≠ .ok none := by
  exact ⟨rfl, rfl, by decide⟩

/-- C6 as amended: for every key holding exactly one value (always the case
in a namespace without duplicate support), `pop(key)` returns the prior
stored value and removes the record — also through the Database Handle,
whose `pop` runs in one transaction — so a subsequent `get(key, default)`
returns `default` for every value coder; for an absent key `pop` returns
`none` and the state is unchanged.  (With several duplicates under the key,
`pop` removes only the first one, per `pop_counterexample`.) -/
theorem pop_amended {κ ν : Type} (kc : Coder κ) (vc : Coder ν) (key : κ)
    (ke : Bytes) (db : DB) (d : Option ν) (hk : kc.serialize key = .ok ke) :
    (∀ (ve : Bytes) (v : ν), alookup ke db.entries = some [ve] →
        vc.deserialize (some ve) = .ok (some v) →
        AsyncTransaction.pop kc vc key d db
          = .ok (some v, { db with entries := aremove ke db.entries })
        ∧ (∀ (ν2 : Type) (vc2 : Coder ν2) (d2 : Option ν2),
            AsyncTransaction.get kc vc2 key d2 { db with entries := aremove ke db.entries }
              = .ok d2)
        ∧ AsyncDatabase.pop kc vc key (EnvState.mk false db)
            = (.ok (some v), EnvState.mk false { db with entries := aremove ke db.entries }))
    ∧ (alookup ke db.entries = none →
        AsyncTransaction.pop kc vc key d db = .ok (none, db)) := by
  constructor
  · intro ve v hpres hde
    have hpop : ∀ d0 : Option ν, AsyncTransaction.pop kc vc key d0 db
        = .ok (some v, { db with entries := aremove ke db.entries }) := by
      intro d0
      simp [AsyncTransaction.pop, txnPop, hk, hpres, hde]
    refine ⟨hpop d, ?_, ?_⟩
    · intro ν2 vc2 d2
      simp [AsyncTransaction.get, txnGet, hk, alookup_aremove_self]
    · simp [AsyncDatabase.pop, AsyncEnviroment.runAction, lmdbBegin, hpop none]
  · intro habs
    simp [AsyncTransaction.pop, txnPop, hk, habs]

/-- Witness for C6 as amended: popping key `[0]` from a plain store holding
the single value `[3]` returns `[3]` and empties the store, the following
`get` returns the default (`none`), and popping the absent key `[9]` returns
`none` and leaves the store unchanged. -/
theorem pop_amended_witness :
    AsyncTransaction.pop IdentityCoder IdentityCoder [0] none
        (DB.mk false [([0], [[3]])])
      = .ok (some [3], DB.mk false [])
    ∧ AsyncTransaction.get IdentityCoder IdentityCoder [0] none (DB.mk false [])
      = .ok none
    ∧ AsyncDatabase.pop IdentityCoder IdentityCoder [0]
        (EnvState.mk false (DB.mk false [([0], [[3]])]))
      = (.ok (some [3]), EnvState.mk false (DB.mk false []))
    ∧ AsyncTransaction.pop IdentityCoder IdentityCoder [9] none
        (DB.mk false [([0], [[3]])])
      = .ok (none, DB.mk false [([0], [[3]])]) := by
  have h := (pop_amended IdentityCoder IdentityCoder [0] [0]
    (DB.mk false [([0], [[3]])]) none rfl).1 [3] [3] (by decide) rfl
  have h2 := (pop_amended IdentityCoder IdentityCoder [9] [9]
    (DB.mk false [([0], [[3]])]) none rfl).2 (by decide)
  exact ⟨h.1, h.2.1 Bytes IdentityCoder none, h.2.2, h2⟩

/-- C7 exhibit: `AsyncTransaction.drop` passes no `delete` argument to
`txn.drop`, so py-lmdb's default `delete=True` always applies and
`drop(delete=False)` removes the sub-namespace from the environment instead
of merely emptying it as the store's `delete=False` mode (and the method's
own docstring) would. -/
theorem drop_ignores_delete_flag :
    (∀ (name : Bytes) (dbs : List (Bytes × DB)) (d : Bool),
        AsyncTransaction.drop d name dbs = lmdbDrop true name dbs)
    ∧ AsyncTransaction.drop false [1] [([1], DB.mk false [([0], [[7]])])] = []
    ∧ lmdbDrop false [1] [([1], DB.mk false [([0], [[7]])])] = [([1], DB.mk false [])]
    ∧ ([] : List (Bytes × DB)) ≠ [([1], DB.mk false [])] := by
  exact ⟨fun name dbs d => rfl, rfl, rfl, by decide⟩

/-- C8: `close()` on the Environment is idempotent — a second call is a
no-op — and after `close()` every subsequent `get` or `put` through a
Database Handle rejects with the closed-environment error and leaves the
(closed) state unchanged. -/
theorem close_idempotent_and_rejects :
    (∀ env : EnvState,
        AsyncEnviroment.close (AsyncEnviroment.close env) = AsyncEnviroment.close env)
    ∧ (∀ (κ ν : Type) (kc : Coder κ) (vc : Coder ν) (key : κ) (d : Option ν)
        (env : EnvState),
        AsyncDatabase.get kc vc key d (AsyncEnviroment.close env)
          = (.error .envClosed, AsyncEnviroment.close env))
    ∧ (∀ (κ ν : Type) (kc : Coder κ) (vc : Coder ν) (key : κ) (value : ν)
        (dd ow : Bool) (env : EnvState),
        AsyncDatabase.put kc vc key value dd ow (AsyncEnviroment.close env)
          = (.error .envClosed, AsyncEnviroment.close env)) := by
  exact ⟨fun env => rfl, fun κ ν kc vc key d env => rfl,
    fun κ ν kc vc key value dd ow env => rfl⟩

/-- C9: each fixed-width unsigned integer coder serializes an in-range value
to its big-endian encoding of fixed length equal to the byte width (2, 4 and
8 for the 16/32/64-bit coders, distinct per width), raises for every value
out of range for the width, and its deserialize raises for every buffer
whose length does not exactly match the width.  The concrete equations pin
the big-endian byte order on sample values from the repository's tests. -/
theorem int_coder_widths :
    (∀ w n : Nat, n < 2 ^ (8 * w) →
        (intCoder w).serialize n = .ok (beBytes w n) ∧ (beBytes w n).length = w)
    ∧ (∀ w n : Nat, 2 ^ (8 * w) ≤ n → (intCoder w).serialize n = .error .structError)
    ∧ (∀ (w : Nat) (b : Bytes), b.length ≠ w →
        (intCoder w).deserialize (some b) = .error .structError)
    ∧ UInt16Coder.serialize 256 = .ok [1, 0]
    ∧ UInt32Coder.serialize 65535 = .ok [0, 0, 255, 255]
    ∧ UInt64Coder.serialize (2 ^ 32 - 1) = .ok [0, 0, 0, 0, 255, 255, 255, 255]
    ∧ UInt16Coder = intCoder 2 ∧ UInt32Coder = intCoder 4 ∧ UInt64Coder = intCoder 8 := by
  refine ⟨?_, ?_, ?_, rfl, rfl, rfl, rfl, rfl, rfl⟩
  · intro w n h
    exact ⟨by simp [intCoder, h], beBytes_length w n⟩
  · intro w n h
    simp [intCoder, Nat.not_lt.mpr h]
  · intro w b h
    simp [intCoder, h]

/-- Witness for C9: the 16-bit coder on the in-range value 256, the 32-bit
coder on the out-of-range value 2 to the 32, and the 64-bit coder on a
3-byte buffer. -/
theorem int_coder_widths_witness :
    ((intCoder 2).serialize 256 = .ok (beBytes 2 256) ∧ (beBytes 2 256).length = 2)
    ∧ (intCoder 4).serialize (2 ^ 32) = .error .structError
    ∧ (intCoder 8).deserialize (some [1, 2, 3]) = .error .structError := by
  exact ⟨int_coder_widths.1 2 256 (by norm_num),
    int_coder_widths.2.1 4 (2 ^ 32) (by norm_num),
    int_coder_widths.2.2.1 8 [1, 2, 3] (by decide)⟩

/-- C10: `AsyncTransaction.pop` accepts a `default` parameter but never
returns it — its result does not depend on the supplied default at all, and
for every absent key it returns `none` together with the unchanged store,
whatever default was supplied. -/
theorem pop_default_unused :
    (∀ (κ ν : Type) (kc : Coder κ) (vc : Coder ν) (key : κ) (d1 d2 : Option ν)
        (db : DB),
        AsyncTransaction.pop kc vc key d1 db = AsyncTransaction.pop kc vc key d2 db)
    ∧ (∀ (κ ν : Type) (kc : Coder κ) (vc : Coder ν) (key : κ) (ke : Bytes)
        (d : Option ν) (db : DB),
        kc.serialize key = .ok ke → alookup ke db.entries = none →
        AsyncTransaction.pop kc vc key d db = .ok (none, db)) := by
  constructor
  · intro κ ν kc vc key d1 d2 db
    rfl
  · intro κ ν kc vc key ke d db hk habs
    simp [AsyncTransaction.pop, txnPop, hk, habs]

/-- Witness for C10: popping the absent key `[9]` with the explicit default
`some [7]` returns `none`, not the default. -/
theorem pop_default_unused_witness :
    AsyncTransaction.pop IdentityCoder IdentityCoder [9] (some [7]) (DB.mk false [])
      = .ok (none, DB.mk false []) := by
  exact pop_default_unused.2 Bytes Bytes IdentityCoder IdentityCoder [9] [9]
    (some [7]) (DB.mk false []) rfl rfl

end Aiolmdb
